import Mathlib

/-!
Verification of the sales-copilot multi-agent analysis pipeline.

The repository ships the frontend (a Next.js page whose core is the
function handleGenerateReport) together with README-level contracts for
the backend orchestrator.  The frontend is embedded here directly from
the source; the orchestrator and the three agents, whose implementation
is not part of the repository snapshot, are modelled from the
specification, and every such definition is marked in its doc comment.
-/

namespace SalesCopilot

/-! ## Base64 codec

The frontend encodes the transcript and the notes with
btoa(unescape(encodeURIComponent(text))), i.e. the standard base64
encoding of the UTF-8 bytes of the text.  We embed that encoding over
byte lists (Nat values below 256) and sextet characters.
-/

def b64Alphabet : List Char :=
  ['A','B','C','D','E','F','G','H','I','J','K','L','M',
   'N','O','P','Q','R','S','T','U','V','W','X','Y','Z',
   'a','b','c','d','e','f','g','h','i','j','k','l','m',
   'n','o','p','q','r','s','t','u','v','w','x','y','z',
   '0','1','2','3','4','5','6','7','8','9','+','/']

/-- Character for a sextet (a value below 64). -/
def b64Char (n : Nat) : Char := b64Alphabet.getD n '?'

/-- Sextet of a base64 character, none for a character outside the alphabet. -/
def charToSextet (c : Char) : Option Nat := b64Alphabet.findIdx? (· == c)

/-- Base64 encoding of a byte list, with '=' padding, as produced by btoa. -/
def b64Encode : List Nat → List Char
  | [] => []
  | [a] => [b64Char (a / 4), b64Char (a % 4 * 16), '=', '=']
  | [a, b] => [b64Char (a / 4), b64Char (a % 4 * 16 + b / 16), b64Char (b % 16 * 4), '=']
  | a :: b :: c :: rest =>
      b64Char (a / 4) :: b64Char (a % 4 * 16 + b / 16) ::
      b64Char (b % 16 * 4 + c / 64) :: b64Char (c % 64) :: b64Encode rest

/-- Base64 decoding to a byte list, as performed by atob on the server side. -/
def b64Decode : List Char → Option (List Nat)
  | [] => some []
  | w :: x :: y :: z :: rest =>
      match charToSextet w, charToSextet x with
      | some a, some b =>
          if y = '=' then
            if z = '=' ∧ rest = [] then some [a * 4 + b / 16] else none
          else
            match charToSextet y with
            | some c =>
                if z = '=' then
                  if rest = [] then some [a * 4 + b / 16, b % 16 * 16 + c / 4] else none
                else
                  match charToSextet z with
                  | some d =>
                      (b64Decode rest).map
                        (fun t => (a * 4 + b / 16) :: (b % 16 * 16 + c / 4) :: (c % 4 * 64 + d) :: t)
                  | none => none
            | none => none
      | _, _ => none
  | _ => none

theorem charToSextet_b64Char_fin : ∀ i : Fin 64, charToSextet (b64Char i.val) = some i.val := by
  decide

theorem charToSextet_b64Char {n : Nat} (h : n < 64) : charToSextet (b64Char n) = some n :=
  charToSextet_b64Char_fin ⟨n, h⟩

theorem b64Char_ne_pad_fin : ∀ i : Fin 64, b64Char i.val ≠ '=' := by
  decide

theorem b64Char_ne_pad {n : Nat} (h : n < 64) : b64Char n ≠ '=' :=
  b64Char_ne_pad_fin ⟨n, h⟩

/-- Decoding inverts encoding on genuine byte lists. -/
theorem b64_round_trip : ∀ l : List Nat, (∀ b ∈ l, b < 256) →
    b64Decode (b64Encode l) = some l
  | [], _ => by simp [b64Encode, b64Decode]
  | [a], h => by
      have ha : a < 256 := h a (by simp)
      have h1 : a / 4 < 64 := by omega
      have h2 : a % 4 * 16 < 64 := by omega
      simp [b64Encode, b64Decode, charToSextet_b64Char h1, charToSextet_b64Char h2]
      omega
  | [a, b], h => by
      have ha : a < 256 := h a (by simp)
      have hb : b < 256 := h b (by simp)
      have h1 : a / 4 < 64 := by omega
      have h2 : a % 4 * 16 + b / 16 < 64 := by omega
      have h3 : b % 16 * 4 < 64 := by omega
      simp [b64Encode, b64Decode, charToSextet_b64Char h1, charToSextet_b64Char h2,
        b64Char_ne_pad h3, charToSextet_b64Char h3]
      omega
  | a :: b :: c :: rest, h => by
      have ha : a < 256 := h a (by simp)
      have hb : b < 256 := h b (by simp)
      have hc : c < 256 := h c (by simp)
      have h1 : a / 4 < 64 := by omega
      have h2 : a % 4 * 16 + b / 16 < 64 := by omega
      have h3 : b % 16 * 4 + c / 64 < 64 := by omega
      have h4 : c % 64 < 64 := by omega
      have ih := b64_round_trip rest (fun x hx => h x (by simp [hx]))
      simp [b64Encode, b64Decode, charToSextet_b64Char h1, charToSextet_b64Char h2,
        b64Char_ne_pad h3, charToSextet_b64Char h3, b64Char_ne_pad h4,
        charToSextet_b64Char h4, ih]
      refine ⟨by omega, by omega, by omega⟩

/-! ## UTF-8 codec

encodeURIComponent followed by unescape turns a JavaScript string into
the string of its UTF-8 bytes; the orchestrator side decodes those bytes
back to text.  We embed the UTF-8 encoding of a code point and its
inverse over byte lists.
-/

/-- UTF-8 bytes of one code point. -/
def utf8EncodeChar (n : Nat) : List Nat :=
  if n < 128 then [n]
  else if n < 2048 then [192 + n / 64, 128 + n % 64]
  else if n < 65536 then [224 + n / 4096, 128 + n / 64 % 64, 128 + n % 64]
  else [240 + n / 262144, 128 + n / 4096 % 64, 128 + n / 64 % 64, 128 + n % 64]

/-- UTF-8 bytes of a code-point sequence. -/
def utf8EncodeCps (cps : List Nat) : List Nat := (cps.map utf8EncodeChar).flatten

/-- UTF-8 bytes of a string. -/
def utf8Encode (s : String) : List Nat := utf8EncodeCps (s.data.map Char.toNat)

/-- One UTF-8 decoding step: the leading code point and the remaining bytes,
none on malformed input. -/
def utf8DecodeOne : List Nat → Option (Nat × List Nat)
  | [] => none
  | b :: rest =>
      if b < 128 then some (b, rest)
      else if b < 192 then none
      else if b < 224 then
        match rest with
        | b2 :: r2 =>
            if 128 ≤ b2 ∧ b2 < 192 then some ((b - 192) * 64 + (b2 - 128), r2) else none
        | [] => none
      else if b < 240 then
        match rest with
        | b2 :: b3 :: r3 =>
            if (128 ≤ b2 ∧ b2 < 192) ∧ (128 ≤ b3 ∧ b3 < 192) then
              some ((b - 224) * 4096 + (b2 - 128) * 64 + (b3 - 128), r3)
            else none
        | _ => none
      else
        match rest with
        | b2 :: b3 :: b4 :: r4 =>
            if (128 ≤ b2 ∧ b2 < 192) ∧ (128 ≤ b3 ∧ b3 < 192) ∧ (128 ≤ b4 ∧ b4 < 192) then
              some ((b - 240) * 262144 + (b2 - 128) * 4096 + (b3 - 128) * 64 + (b4 - 128), r4)
            else none
        | _ => none

theorem utf8DecodeOne_shrinks : ∀ {l : List Nat} {c : Nat} {rest : List Nat},
    utf8DecodeOne l = some (c, rest) → rest.length < l.length := by
  intro l c rest h
  match l with
  | [] => simp [utf8DecodeOne] at h
  | b :: t =>
      simp only [utf8DecodeOne] at h
      repeat' split at h
      all_goals simp only [Option.some.injEq, Prod.mk.injEq, reduceCtorEq] at h
      all_goals (obtain ⟨h1, h2⟩ := h; subst h2; simp_all; try omega)

/-- UTF-8 decoding of a byte list back to code points; none on malformed input. -/
def utf8Decode (l : List Nat) : Option (List Nat) :=
  match l with
  | [] => some []
  | b :: t =>
      match h : utf8DecodeOne (b :: t) with
      | some (c, rest) => (utf8Decode rest).map (c :: ·)
      | none => none
termination_by l.length
decreasing_by exact utf8DecodeOne_shrinks h

theorem utf8Decode_nil : utf8Decode [] = some [] := by
  rw [utf8Decode]

theorem utf8Decode_cons_step {b : Nat} {t : List Nat} {c : Nat} {rest : List Nat}
    (h : utf8DecodeOne (b :: t) = some (c, rest)) :
    utf8Decode (b :: t) = (utf8Decode rest).map (c :: ·) := by
  rw [utf8Decode, h]

/-- UTF-8 decoding of a byte list back to a string. -/
def utf8DecodeString (bytes : List Nat) : Option String :=
  (utf8Decode bytes).map (fun cps => ⟨cps.map Char.ofNat⟩)

theorem utf8EncodeChar_bytes_lt {c : Nat} (hc : c < 1114112) :
    ∀ b ∈ utf8EncodeChar c, b < 256 := by
  intro b hb
  by_cases h1 : c < 128
  · simp [utf8EncodeChar, h1] at hb; omega
  · by_cases h2 : c < 2048
    · simp [utf8EncodeChar, h1, h2] at hb; omega
    · by_cases h3 : c < 65536
      · simp [utf8EncodeChar, h1, h2, h3] at hb
        rcases hb with hb | hb | hb <;> omega
      · simp [utf8EncodeChar, h1, h2, h3] at hb
        rcases hb with hb | hb | hb | hb <;> omega

theorem utf8DecodeOne_encodeChar {c : Nat} (hc : c < 1114112) (tail : List Nat) :
    utf8DecodeOne (utf8EncodeChar c ++ tail) = some (c, tail) := by
  by_cases h1 : c < 128
  · simp [utf8EncodeChar, h1, utf8DecodeOne]
  · by_cases h2 : c < 2048
    · have hb1 : ¬ (192 + c / 64 < 128) := by omega
      have hb2 : ¬ (192 + c / 64 < 192) := by omega
      have hb3 : 192 + c / 64 < 224 := by omega
      have hb4 : 128 ≤ 128 + c % 64 ∧ 128 + c % 64 < 192 := by omega
      have hv : (192 + c / 64 - 192) * 64 + (128 + c % 64 - 128) = c := by omega
      simp only [utf8EncodeChar, if_neg h1, if_pos h2, List.cons_append, List.nil_append,
        utf8DecodeOne, if_neg hb1, if_neg hb2, if_pos hb3, if_pos hb4, hv]
    · by_cases h3 : c < 65536
      · have hb1 : ¬ (224 + c / 4096 < 128) := by omega
        have hb2 : ¬ (224 + c / 4096 < 192) := by omega
        have hb3 : ¬ (224 + c / 4096 < 224) := by omega
        have hb4 : 224 + c / 4096 < 240 := by omega
        have hb5 : (128 ≤ 128 + c / 64 % 64 ∧ 128 + c / 64 % 64 < 192) ∧
            (128 ≤ 128 + c % 64 ∧ 128 + c % 64 < 192) := by omega
        have hv : (224 + c / 4096 - 224) * 4096 + (128 + c / 64 % 64 - 128) * 64 +
            (128 + c % 64 - 128) = c := by omega
        simp only [utf8EncodeChar, if_neg h1, if_neg h2, if_pos h3, List.cons_append,
          List.nil_append, utf8DecodeOne, if_neg hb1, if_neg hb2, if_neg hb3, if_pos hb4,
          if_pos hb5, hv]
      · have hb1 : ¬ (240 + c / 262144 < 128) := by omega
        have hb2 : ¬ (240 + c / 262144 < 192) := by omega
        have hb3 : ¬ (240 + c / 262144 < 224) := by omega
        have hb4 : ¬ (240 + c / 262144 < 240) := by omega
        have hb5 : (128 ≤ 128 + c / 4096 % 64 ∧ 128 + c / 4096 % 64 < 192) ∧
            (128 ≤ 128 + c / 64 % 64 ∧ 128 + c / 64 % 64 < 192) ∧
            (128 ≤ 128 + c % 64 ∧ 128 + c % 64 < 192) := by omega
        have hv : (240 + c / 262144 - 240) * 262144 + (128 + c / 4096 % 64 - 128) * 4096 +
            (128 + c / 64 % 64 - 128) * 64 + (128 + c % 64 - 128) = c := by omega
        simp only [utf8EncodeChar, if_neg h1, if_neg h2, if_neg h3, List.cons_append,
          List.nil_append, utf8DecodeOne, if_neg hb1, if_neg hb2, if_neg hb3, if_neg hb4,
          if_pos hb5, hv]

theorem utf8EncodeChar_ne_nil (c : Nat) : utf8EncodeChar c ≠ [] := by
  unfold utf8EncodeChar
  split_ifs <;> simp

theorem utf8Decode_encodeChar {c : Nat} (hc : c < 1114112) (tail : List Nat) :
    utf8Decode (utf8EncodeChar c ++ tail) = (utf8Decode tail).map (c :: ·) := by
  have hne : utf8EncodeChar c ++ tail ≠ [] := by
    simp [utf8EncodeChar_ne_nil c]
  match he : utf8EncodeChar c ++ tail with
  | [] => exact absurd he hne
  | b :: t =>
      rw [← he, he, utf8Decode_cons_step (by rw [← he]; exact utf8DecodeOne_encodeChar hc tail)]

/-- UTF-8 decoding inverts encoding on code-point sequences. -/
theorem utf8_cp_round_trip : ∀ cps : List Nat, (∀ c ∈ cps, c < 1114112) →
    utf8Decode (utf8EncodeCps cps) = some cps := by
  intro cps h
  induction cps with
  | nil => simp [utf8EncodeCps, utf8Decode_nil]
  | cons c rest ih =>
      have hc : c < 1114112 := h c (by simp)
      have hrest := ih (fun x hx => h x (by simp [hx]))
      simp only [utf8EncodeCps, List.map_cons, List.flatten_cons]
      rw [utf8Decode_encodeChar hc, show (rest.map utf8EncodeChar).flatten =
        utf8EncodeCps rest from rfl, hrest]
      rfl

theorem char_toNat_lt (c : Char) : c.toNat < 1114112 := by
  have h := c.valid
  simp only [UInt32.isValidChar, Nat.isValidChar] at h
  show c.val.toNat < 1114112
  omega

/-- Byte bound for the UTF-8 encoding of a whole string. -/
theorem utf8Encode_bytes_lt (s : String) : ∀ b ∈ utf8Encode s, b < 256 := by
  intro b hb
  simp only [utf8Encode, utf8EncodeCps, List.mem_flatten] at hb
  obtain ⟨l, hl, hbl⟩ := hb
  simp only [List.mem_map] at hl
  obtain ⟨cp, hcp, rfl⟩ := hl
  obtain ⟨ch, _, rfl⟩ := hcp
  exact utf8EncodeChar_bytes_lt (char_toNat_lt ch) b hbl

/-- UTF-8 decoding recovers the original string. -/
theorem utf8_string_round_trip (s : String) : utf8DecodeString (utf8Encode s) = some s := by
  have hb : ∀ c ∈ s.data.map Char.toNat, c < 1114112 := by
    intro c hc
    simp only [List.mem_map] at hc
    obtain ⟨ch, _, rfl⟩ := hc
    exact char_toNat_lt ch
  unfold utf8DecodeString utf8Encode
  rw [utf8_cp_round_trip _ hb]
  simp only [Option.map_some', Option.some.injEq]
  rw [List.map_map]
  have hid : (Char.ofNat ∘ Char.toNat) = id := by
    funext c
    exact Char.ofNat_toNat c
  rw [hid, List.map_id]

/-! ## Data model

Result shapes shared by the frontend (part_004) and the orchestrator
contract (spec sections 3 and 6).  Enumerated fields (sentiment,
priority) travel as strings over the JSON boundary and are embedded as
strings.
-/

/-- Error taxonomy of agent-level failures (spec section 7). -/
inductive ErrorKind where
  | transient
  | rejected
  | malformedResponse
  | lookupError
deriving DecidableEq

/-- Terminal outcome of one agent run (spec section 3). -/
inductive AgentOutcome (T : Type) where
  | success (value : T)
  | failure (kind : ErrorKind) (message : String)
  | timedOut
deriving DecidableEq

structure CrmInfo where
  name : String
  department : String
  email : String
  tenure : String
deriving DecidableEq

/-- The sentinel profile: every field holds "unknown" (spec section 3). -/
def defaultCrmInfo : CrmInfo := ⟨"unknown", "unknown", "unknown", "unknown"⟩

structure CustomerStory where
  background : String
  keyPoints : List String
  sentiment : String
  actionItems : List String
deriving DecidableEq

structure EngineerFeedback where
  feedback : String
  actionItems : List String
  priority : String
deriving DecidableEq

/-- Per-agent settle flags (spec section 3; part_004 lines 71-75). -/
structure ProgressState where
  crmInfo : Bool
  customerStory : Bool
  engineerFeedback : Bool
deriving DecidableEq

/-- Final aggregate returned by the orchestrator (spec section 3). -/
structure Report where
  crmInfo : AgentOutcome CrmInfo
  customerStory : AgentOutcome CustomerStory
  engineerFeedback : AgentOutcome EngineerFeedback
  requestId : String
  completedAt : Nat
deriving DecidableEq

/-- Cause recorded for one failed agent inside AllAgentsFailed. -/
inductive FailCause where
  | failure (kind : ErrorKind) (message : String)
  | timedOut
deriving DecidableEq

/-- Request-level errors (spec section 7). -/
inductive RequestError where
  | invalidRequest
  | allAgentsFailed (crm : FailCause) (story : FailCause) (eng : FailCause)
deriving DecidableEq

/-! ## Frontend embedding

Embedding of handleGenerateReport and its helpers from
src/unnamed/part_004 (the RapidReportGenerator page).  JavaScript string
truthiness (empty string is falsy) is embedded by jsOrElse, and
String.prototype.trim by jsTrim over the character list.
-/

/-- JavaScript `s || d` on strings: d when s is empty, s otherwise. -/
def jsOrElse (s d : String) : String := if s = "" then d else s

/-- JavaScript String.prototype.trim: strip leading and trailing whitespace. -/
def jsTrim (s : String) : String :=
  ⟨((s.data.dropWhile Char.isWhitespace).reverse.dropWhile Char.isWhitespace).reverse⟩

/-- btoa(unescape(encodeURIComponent(s))): base64 of the UTF-8 bytes of s
(part_004 line 104). -/
def encodeForRequest (s : String) : String := ⟨b64Encode (utf8Encode s)⟩

/-- The JSON request body built at part_004 lines 103-107: the transcript is
always encoded, the notes only when non-empty, and the CRM identifier is sent
verbatim under the key "crmId". -/
def requestData (customerFeedback customerContext salesNotes : String) :
    List (String × String) :=
  [("transcript", encodeForRequest customerFeedback),
   ("notes", if customerContext = "" then "" else encodeForRequest customerContext),
   ("crmId", jsOrElse salesNotes "")]

/-- Value of a field of a JSON object embedded as a key-value list. -/
def fieldValue (body : List (String × String)) (k : String) : Option String :=
  (body.find? (fun p => p.1 == k)).map (fun p => p.2)

/-- JSON view of the crm_info object of the /analyze response; a missing or
null leaf is none. -/
structure CrmInfoJson where
  name : Option String
  department : Option String
  email : Option String
  tenure : Option String
deriving DecidableEq

/-- JSON view of the customer_story object of the /analyze response. -/
structure CustomerStoryJson where
  customer_background : Option String
  key_points : Option (List String)
  sentiment : Option String
  action_items : Option (List String)
deriving DecidableEq

/-- JSON view of the engineering_feedback object of the /analyze response. -/
structure EngineeringFeedbackJson where
  feedback : Option String
  action_items : Option (List String)
  priority : Option String
deriving DecidableEq

/-- JSON-shaped /analyze response (spec section 6). -/
structure AnalyzeResponse where
  crm_info : CrmInfoJson
  customer_story : CustomerStoryJson
  engineering_feedback : EngineeringFeedbackJson
deriving DecidableEq

/-- JavaScript `v || d` on a nullable string leaf: null, undefined and the
empty string are falsy. -/
def orElseStr (v : Option String) (d : String) : String :=
  match v with
  | some s => jsOrElse s d
  | none => d

/-- JavaScript `v || d` on a nullable array leaf: an array is always truthy,
even when empty. -/
def orElseList (v : Option (List String)) (d : List String) : List String :=
  match v with
  | some l => l
  | none => d

/-- The report object the page renders. -/
structure ReportData where
  crmInfo : CrmInfo
  customerStory : CustomerStory
  engineeringFeedback : EngineerFeedback
deriving DecidableEq

/-- setReportData argument built at part_004 lines 132-150. -/
def buildReportData (result : AnalyzeResponse) : ReportData :=
  ⟨⟨orElseStr result.crm_info.name "N/A",
    orElseStr result.crm_info.department "N/A",
    orElseStr result.crm_info.email "N/A",
    orElseStr result.crm_info.tenure "N/A"⟩,
   ⟨orElseStr result.customer_story.customer_background "",
    orElseList result.customer_story.key_points [],
    orElseStr result.customer_story.sentiment "neutral",
    orElseList result.customer_story.action_items []⟩,
   ⟨orElseStr result.engineering_feedback.feedback "",
    orElseList result.engineering_feedback.action_items [],
    orElseStr result.engineering_feedback.priority "medium"⟩⟩

/-- Component state touched by handleGenerateReport. -/
structure ClientState where
  isGenerating : Bool
  progress : ProgressState
  reportData : Option ReportData
deriving DecidableEq

/-- How the fetch to /analyze resolves. -/
inductive FetchOutcome where
  | throws
  | notOk (detail : Option String)
  | ok (resp : AnalyzeResponse)
deriving DecidableEq

structure FetchCall where
  url : String
  body : List (String × String)
deriving DecidableEq

/-- Default NEXT_PUBLIC_API_URL (part_004 line 28). -/
def apiUrl : String := "http://localhost:8000"

/-- handleGenerateReport (part_004 lines 78-167) embedded as the sequence of
component states it sets and the network calls it issues.  With an empty
trimmed transcript it toasts and returns without touching state or network.
Otherwise it resets the state, issues one POST to /analyze, and either stores
the built report (success) or leaves the reset state, restoring isGenerating
to false in the finally block either way. -/
def handleGenerateReport (s : ClientState)
    (customerFeedback customerContext salesNotes : String)
    (fetched : FetchOutcome) : List ClientState × List FetchCall :=
  if jsTrim customerFeedback = "" then ([s], [])
  else
    let reset : ClientState := ⟨true, ⟨false, false, false⟩, none⟩
    let call : FetchCall :=
      ⟨apiUrl ++ "/analyze", requestData customerFeedback customerContext salesNotes⟩
    match fetched with
    | .ok resp =>
        let withReport : ClientState :=
          ⟨true, ⟨true, true, true⟩, some (buildReportData resp)⟩
        ([s, reset, withReport, ⟨false, withReport.progress, withReport.reportData⟩], [call])
    | _ => ([s, reset, ⟨false, ⟨false, false, false⟩, none⟩], [call])

/-! ## Orchestrator model

The orchestrator, the three agents and the progress reporter are not part
of the repository snapshot (only their boundary appears, in the frontend
and the READMEs); every definition below is therefore modelled from the
specification and says so in its doc comment.
-/

/-- Modelled from the spec: a transcript or notes payload arrives either as
plain text or as an opaque base64-encoded UTF-8 byte payload that must be
decoded before dispatch (spec section 3). -/
inductive Payload where
  | plain (text : String)
  | encoded (chars : List Char)
deriving DecidableEq

/-- Modelled from the spec: decode a payload to text; none is a request-level
decode failure (spec section 3). -/
def decodePayload : Payload → Option String
  | .plain t => some t
  | .encoded cs => (b64Decode cs).bind utf8DecodeString

/-- Modelled from the spec: the AnalysisRequest consumed at the orchestrator
boundary (spec section 3); an absent optional field is the empty string or
none. -/
structure AnalysisRequest where
  transcript : Payload
  notes : Option Payload
  recordId : String
deriving DecidableEq

/-- Modelled from the spec: decoded transcript and notes; none when either
decode fails, which is a request-level error (spec section 3). -/
def decodeRequest (req : AnalysisRequest) : Option (String × String) :=
  match decodePayload req.transcript with
  | none => none
  | some t =>
      match req.notes with
      | none => some (t, "")
      | some p =>
          match decodePayload p with
          | none => none
          | some n => some (t, n)

/-- Calls issued to the three remote collaborators during one request. -/
structure CallLog where
  completion : Nat
  retrieval : Nat
  recordStore : Nat
deriving DecidableEq

def CallLog.zero : CallLog := ⟨0, 0, 0⟩

def CallLog.add (a b : CallLog) : CallLog :=
  ⟨a.completion + b.completion, a.retrieval + b.retrieval, a.recordStore + b.recordStore⟩

/-- Modelled from the spec: result of one Record Store lookup: a record,
not-found, or a remote error (spec section 6). -/
inductive LookupResult where
  | found (record : CrmInfo)
  | notFound
  | transientError (message : String)
  | lookupFailure (message : String)
deriving DecidableEq

/-- Modelled from the spec: behavior of the CRM agent's remote lookup: when it
would settle and what the store answers. -/
structure CrmEnv where
  finishTime : Nat
  lookup : LookupResult
deriving DecidableEq

/-- Modelled from the spec: CRM Info Agent Run (spec section 4.4).  An empty
recordId succeeds immediately with the all-default profile and no remote
call; a not-found lookup maps to the defaults; any other remote error maps to
Failure(LookupError); a lookup still in flight at the deadline is recorded
TimedOut.  Returns the outcome, the calls issued and the settle time. -/
def crmRun (recordId : String) (env : CrmEnv) (deadline : Nat) :
    AgentOutcome CrmInfo × CallLog × Nat :=
  if recordId = "" then (.success defaultCrmInfo, CallLog.zero, 0)
  else
    let outcome : AgentOutcome CrmInfo :=
      if deadline < env.finishTime then .timedOut
      else
        match env.lookup with
        | .found record => .success record
        | .notFound => .success defaultCrmInfo
        | .transientError m => .failure .lookupError m
        | .lookupFailure m => .failure .lookupError m
    (outcome, ⟨0, 0, 1⟩, min env.finishTime deadline)

/-- Modelled from the spec: one completion-service call: transient failure,
content rejection, or a response that parses to some value (none when the
response is malformed) (spec section 6). -/
inductive CompletionResult (T : Type) where
  | transient (message : String)
  | rejected (message : String)
  | responds (parsed : Option T)
deriving DecidableEq

/-- Modelled from the spec: behavior of one completion-backed agent run: when
it settles and the results of its first and (if retried) second completion
call. -/
structure AgentEnv (T : Type) where
  finishTime : Nat
  attempt1 : CompletionResult T
  attempt2 : CompletionResult T
deriving DecidableEq

/-- A malformed completion response is a terminal failure, never a crash
(spec sections 4.2-4.3). -/
def parseOutcome {T : Type} : Option T → AgentOutcome T
  | some v => .success v
  | none => .failure .malformedResponse "unparsable completion response"

/-- Modelled from the spec: retry once on a transient failure, fail fast on a
content rejection (spec sections 4.2-4.3).  Returns the outcome and the
number of completion calls issued. -/
def completeWithRetry {T : Type} (a1 a2 : CompletionResult T) : AgentOutcome T × Nat :=
  match a1 with
  | .transient _ =>
      (match a2 with
       | .transient m => (.failure .transient m, 2)
       | .rejected m => (.failure .rejected m, 2)
       | .responds p => (parseOutcome p, 2))
  | .rejected m => (.failure .rejected m, 1)
  | .responds p => (parseOutcome p, 1)

/-- Modelled from the spec: Customer Story Agent Run (spec section 4.3): one
best-effort retrieval query whose failure is silently ignored, then the
completion call under the retry policy; transcript and notes feed the opaque
prompt. -/
def customerStoryRun (transcript notes : String) (env : AgentEnv CustomerStory)
    (deadline : Nat) : AgentOutcome CustomerStory × CallLog × Nat :=
  let (outcome, n) := completeWithRetry env.attempt1 env.attempt2
  (if deadline < env.finishTime then .timedOut else outcome,
   ⟨n, 1, 0⟩, min env.finishTime deadline)

/-- Modelled from the spec: Engineer Feedback Agent Run (spec section 4.2):
one completion request built from transcript and notes, under the retry
policy. -/
def engineerFeedbackRun (transcript notes : String) (env : AgentEnv EngineerFeedback)
    (deadline : Nat) : AgentOutcome EngineerFeedback × CallLog × Nat :=
  let (outcome, n) := completeWithRetry env.attempt1 env.attempt2
  (if deadline < env.finishTime then .timedOut else outcome,
   ⟨n, 0, 0⟩, min env.finishTime deadline)

/-- The three agent roles. -/
inductive Role where
  | crm
  | story
  | eng
deriving DecidableEq

def allRoles : List Role := [.crm, .story, .eng]

/-- The settled outcome of each role. -/
structure Outcomes where
  crm : AgentOutcome CrmInfo
  story : AgentOutcome CustomerStory
  eng : AgentOutcome EngineerFeedback
deriving DecidableEq

/-- Flip the progress flag of one role; flags are never cleared mid-request
(spec sections 3 and 4.5). -/
def progressStep (ps : ProgressState) : Role → ProgressState
  | .crm => ⟨true, ps.customerStory, ps.engineerFeedback⟩
  | .story => ⟨ps.crmInfo, true, ps.engineerFeedback⟩
  | .eng => ⟨ps.crmInfo, ps.customerStory, true⟩

/-- Progress flag of one role. -/
def flagOf (r : Role) (ps : ProgressState) : Bool :=
  match r with
  | .crm => ps.crmInfo
  | .story => ps.customerStory
  | .eng => ps.engineerFeedback

/-- Orchestrator-owned state while agents are in flight: one outcome slot per
role plus the progress flags (spec section 3, ownership paragraph). -/
structure Pending where
  crmSlot : Option (AgentOutcome CrmInfo)
  storySlot : Option (AgentOutcome CustomerStory)
  engSlot : Option (AgentOutcome EngineerFeedback)
  progress : ProgressState
deriving DecidableEq

def Pending.initial : Pending := ⟨none, none, none, ⟨false, false, false⟩⟩

/-- Modelled from the spec: on settle, record the outcome in the fixed
role-determined slot and flip the matching progress flag regardless of
success, failure or timeout (spec section 4.1). -/
def settle (outs : Outcomes) (p : Pending) : Role → Pending
  | .crm => ⟨some outs.crm, p.storySlot, p.engSlot, progressStep p.progress .crm⟩
  | .story => ⟨p.crmSlot, some outs.story, p.engSlot, progressStep p.progress .story⟩
  | .eng => ⟨p.crmSlot, p.storySlot, some outs.eng, progressStep p.progress .eng⟩

/-- Record settles in the order the agents finish. -/
def gather (outs : Outcomes) (order : List Role) : Pending :=
  order.foldl (settle outs) Pending.initial

/-- Modelled from the spec: the orchestrator waits for every role to settle
before constructing the Report (spec section 4.1): any role missing from the
observed order settles after it. -/
def settleAll (outs : Outcomes) (order : List Role) : Pending :=
  gather outs (order ++ allRoles.filter (fun r => ! order.contains r))

/-- Report construction: happens once, from a fully settled Pending; none
while any agent is still in flight (spec section 5). -/
def finalize (p : Pending) (requestId : String) (completedAt : Nat) : Option Report :=
  match p.crmSlot, p.storySlot, p.engSlot with
  | some c, some s, some e => some ⟨c, s, e, requestId, completedAt⟩
  | _, _, _ => none

/-- An outcome other than success. -/
def AgentOutcome.failed {T : Type} : AgentOutcome T → Bool
  | .success _ => false
  | .failure _ _ => true
  | .timedOut => true

/-- Cause recorded for a non-success outcome.  The success case is dead: the
aggregation below only reads causes when all three outcomes failed. -/
def AgentOutcome.cause {T : Type} : AgentOutcome T → FailCause
  | .failure k m => .failure k m
  | .timedOut => .timedOut
  | .success _ => .timedOut

/-- Modelled from the spec: one request's whole environment: per-agent remote
behavior, the order in which the agents settle, and the request id stamped on
the Report. -/
structure Env where
  crm : CrmEnv
  story : AgentEnv CustomerStory
  eng : AgentEnv EngineerFeedback
  settleOrder : List Role
  requestId : String
deriving DecidableEq

deriving instance DecidableEq for Except

/-- What one Analyze invocation produces: the result, the collaborator calls
issued, and the time at which it returns. -/
structure AnalyzeOutput where
  result : Except RequestError Report
  calls : CallLog
  returnTime : Nat
deriving DecidableEq

/-- Modelled from the spec: Analyze (spec section 4.1): validate and decode
the request, failing fast with InvalidRequest and dispatching no agent on an
empty or undecodable transcript; otherwise dispatch the three agents
concurrently, wait for all three to settle, and aggregate: a Report unless
all three failed, in which case AllAgentsFailed carries the three causes.
The final match arm is dead code: settleAll settles every slot (proved
below). -/
def Analyze (req : AnalysisRequest) (env : Env) (deadline : Nat) : AnalyzeOutput :=
  match decodeRequest req with
  | none => ⟨.error .invalidRequest, CallLog.zero, 0⟩
  | some (t, notes) =>
      if t = "" then ⟨.error .invalidRequest, CallLog.zero, 0⟩
      else
        let (co, ccalls, ct) := crmRun req.recordId env.crm deadline
        let (so, scalls, st) := customerStoryRun t notes env.story deadline
        let (eo, ecalls, et) := engineerFeedbackRun t notes env.eng deadline
        let calls := (ccalls.add scalls).add ecalls
        let returnTime := max ct (max st et)
        let p := settleAll ⟨co, so, eo⟩ env.settleOrder
        match finalize p env.requestId returnTime with
        | some report =>
            if report.crmInfo.failed && report.customerStory.failed &&
                report.engineerFeedback.failed then
              ⟨.error (.allAgentsFailed report.crmInfo.cause report.customerStory.cause
                report.engineerFeedback.cause), calls, returnTime⟩
            else ⟨.ok report, calls, returnTime⟩
        | none => ⟨.error .invalidRequest, calls, returnTime⟩

/-- Progress snapshots a poller can observe, in settle order (spec section
4.5). -/
def progressTrace (order : List Role) : List ProgressState :=
  List.scanl progressStep ⟨false, false, false⟩ order

/-- Modelled from the spec: serialize a Report to the JSON response shape:
every key always present; an agent failure is rendered with the sentinel
default values, never by omitting a key or writing null (spec section 6). -/
def serializeReport (r : Report) : AnalyzeResponse :=
  ⟨(match r.crmInfo with
    | .success v => ⟨some v.name, some v.department, some v.email, some v.tenure⟩
    | _ => ⟨some defaultCrmInfo.name, some defaultCrmInfo.department,
        some defaultCrmInfo.email, some defaultCrmInfo.tenure⟩),
   (match r.customerStory with
    | .success v => ⟨some v.background, some v.keyPoints, some v.sentiment,
        some v.actionItems⟩
    | _ => ⟨some "unknown", some [], some "unknown", some []⟩),
   (match r.engineerFeedback with
    | .success v => ⟨some v.feedback, some v.actionItems, some v.priority⟩
    | _ => ⟨some "unknown", some [], some "unknown"⟩)⟩

/-! ## Settle-order lemmas

The gathered slots depend only on which roles settled, not on the order
in which they did. -/

theorem foldl_settle_crmSlot (outs : Outcomes) :
    ∀ (order : List Role) (p : Pending),
      (order.foldl (settle outs) p).crmSlot =
        if Role.crm ∈ order then some outs.crm else p.crmSlot := by
  intro order
  induction order with
  | nil => intro p; simp
  | cons r rest ih =>
      intro p
      simp only [List.foldl_cons, ih (settle outs p r), List.mem_cons]
      cases r <;> by_cases h : Role.crm ∈ rest <;> simp [settle, h]

theorem foldl_settle_storySlot (outs : Outcomes) :
    ∀ (order : List Role) (p : Pending),
      (order.foldl (settle outs) p).storySlot =
        if Role.story ∈ order then some outs.story else p.storySlot := by
  intro order
  induction order with
  | nil => intro p; simp
  | cons r rest ih =>
      intro p
      simp only [List.foldl_cons, ih (settle outs p r), List.mem_cons]
      cases r <;> by_cases h : Role.story ∈ rest <;> simp [settle, h]

theorem foldl_settle_engSlot (outs : Outcomes) :
    ∀ (order : List Role) (p : Pending),
      (order.foldl (settle outs) p).engSlot =
        if Role.eng ∈ order then some outs.eng else p.engSlot := by
  intro order
  induction order with
  | nil => intro p; simp
  | cons r rest ih =>
      intro p
      simp only [List.foldl_cons, ih (settle outs p r), List.mem_cons]
      cases r <;> by_cases h : Role.eng ∈ rest <;> simp [settle, h]

/-- Every role is settled after settleAll, wherever (or whether) it appeared
in the observed order. -/
theorem mem_settleAll_order (r : Role) (order : List Role) :
    r ∈ order ++ allRoles.filter (fun x => ! order.contains x) := by
  by_cases h : r ∈ order
  · exact List.mem_append_left _ h
  · refine List.mem_append_right _ (List.mem_filter.mpr ⟨?_, ?_⟩)
    · cases r <;> simp [allRoles]
    · simpa using h

theorem settleAll_crmSlot (outs : Outcomes) (order : List Role) :
    (settleAll outs order).crmSlot = some outs.crm := by
  unfold settleAll gather
  rw [foldl_settle_crmSlot, if_pos (mem_settleAll_order Role.crm order)]

theorem settleAll_storySlot (outs : Outcomes) (order : List Role) :
    (settleAll outs order).storySlot = some outs.story := by
  unfold settleAll gather
  rw [foldl_settle_storySlot, if_pos (mem_settleAll_order Role.story order)]

theorem settleAll_engSlot (outs : Outcomes) (order : List Role) :
    (settleAll outs order).engSlot = some outs.eng := by
  unfold settleAll gather
  rw [foldl_settle_engSlot, if_pos (mem_settleAll_order Role.eng order)]

/-- The Report built from a fully gathered state holds each outcome in its
fixed role slot, whatever the settle order was. -/
theorem finalize_settleAll (outs : Outcomes) (order : List Role)
    (requestId : String) (completedAt : Nat) :
    finalize (settleAll outs order) requestId completedAt =
      some ⟨outs.crm, outs.story, outs.eng, requestId, completedAt⟩ := by
  unfold finalize
  rw [settleAll_crmSlot, settleAll_storySlot, settleAll_engSlot]

/-- Analyze on a valid request: the three outcomes land in their role slots
and the partial-failure policy decides between a Report and AllAgentsFailed. -/
theorem Analyze_valid (req : AnalysisRequest) (env : Env) (deadline : Nat)
    (t notes : String) (hd : decodeRequest req = some (t, notes)) (ht : t ≠ "") :
    Analyze req env deadline =
      (let co := (crmRun req.recordId env.crm deadline).1
       let so := (customerStoryRun t notes env.story deadline).1
       let eo := (engineerFeedbackRun t notes env.eng deadline).1
       let calls := (((crmRun req.recordId env.crm deadline).2.1).add
         (customerStoryRun t notes env.story deadline).2.1).add
         (engineerFeedbackRun t notes env.eng deadline).2.1
       let rt := max (crmRun req.recordId env.crm deadline).2.2
         (max (customerStoryRun t notes env.story deadline).2.2
              (engineerFeedbackRun t notes env.eng deadline).2.2)
       if co.failed && so.failed && eo.failed then
         ⟨.error (.allAgentsFailed co.cause so.cause eo.cause), calls, rt⟩
       else ⟨.ok ⟨co, so, eo, env.requestId, rt⟩, calls, rt⟩) := by
  unfold Analyze
  rw [hd]
  simp only [if_neg ht, finalize_settleAll]

/-! ## Progress-flag lemmas

The poller-visible progress snapshots along any settle order: flags only
ever go from false to true, and each flips exactly once when its role
settles. -/

theorem flagOf_progressStep_mono (r r' : Role) (ps : ProgressState)
    (h : flagOf r ps = true) : flagOf r (progressStep ps r') = true := by
  cases r <;> cases r' <;> simp_all [flagOf, progressStep]

theorem flagOf_progressStep_self (r : Role) (ps : ProgressState) :
    flagOf r (progressStep ps r) = true := by
  cases r <;> simp [flagOf, progressStep]

theorem flagOf_progressStep_other (r r' : Role) (ps : ProgressState) (h : r ≠ r') :
    flagOf r (progressStep ps r') = flagOf r ps := by
  cases r <;> cases r' <;> simp_all [flagOf, progressStep]

/-- One snapshot dominates another: no flag is lost. -/
def ProgressLe (a b : ProgressState) : Prop :=
  ∀ r : Role, flagOf r a = true → flagOf r b = true

theorem progressLe_trans {a b c : ProgressState} (h1 : ProgressLe a b)
    (h2 : ProgressLe b c) : ProgressLe a c :=
  fun r h => h2 r (h1 r h)

instance : IsTrans ProgressState ProgressLe :=
  ⟨fun _ _ _ h1 h2 => progressLe_trans h1 h2⟩

theorem scanl_head {α β : Type} (f : β → α → β) (b : β) (l : List α) :
    (List.scanl f b l).head? = some b := by
  cases l <;> simp [List.scanl]

theorem chain_scanl_progress : ∀ (order : List Role) (ps : ProgressState),
    List.Chain' ProgressLe (List.scanl progressStep ps order) := by
  intro order
  induction order with
  | nil => intro ps; simp [List.scanl]
  | cons r rest ih =>
      intro ps
      rw [List.scanl]
      rw [List.chain'_cons']
      refine ⟨?_, ih (progressStep ps r)⟩
      intro b hb
      rw [scanl_head] at hb
      cases hb
      exact fun q hq => flagOf_progressStep_mono q r ps hq

/-- Monotonicity across any two indices of the trace. -/
theorem progressTrace_mono (order : List Role) (r : Role)
    (i j : Fin (progressTrace order).length) (hij : i.val ≤ j.val)
    (h : flagOf r ((progressTrace order).get i) = true) :
    flagOf r ((progressTrace order).get j) = true := by
  have hc : List.Chain' ProgressLe (progressTrace order) :=
    chain_scanl_progress order ⟨false, false, false⟩
  have hp : List.Pairwise ProgressLe (progressTrace order) :=
    (List.chain'_iff_pairwise.mp hc)
  rcases Nat.lt_or_ge i.val j.val with hlt | hge
  · have := List.pairwise_iff_get.mp hp i j hlt
    exact this r h
  · have : i = j := Fin.ext (Nat.le_antisymm hij hge)
    cases this
    exact h

/-- Number of false-to-true transitions of one flag along a trace of
snapshots. -/
def flips (r : Role) : List ProgressState → Nat
  | a :: b :: t => (if flagOf r a = false ∧ flagOf r b = true then 1 else 0) + flips r (b :: t)
  | _ => 0

theorem flips_scanl_cons (r r' : Role) (ps : ProgressState) (rest : List Role) :
    flips r (List.scanl progressStep ps (r' :: rest)) =
      (if flagOf r ps = false ∧ flagOf r (progressStep ps r') = true then 1 else 0) +
      flips r (List.scanl progressStep (progressStep ps r') rest) := by
  cases rest with
  | nil => simp [List.scanl, flips]
  | cons a t => simp only [List.scanl, flips]

/-- Once a flag is up, it never transitions again. -/
theorem flips_of_true (r : Role) : ∀ (order : List Role) (ps : ProgressState),
    flagOf r ps = true → flips r (List.scanl progressStep ps order) = 0 := by
  intro order
  induction order with
  | nil => intro ps _; simp [List.scanl, flips]
  | cons r' rest ih =>
      intro ps h
      rw [flips_scanl_cons, ih (progressStep ps r') (flagOf_progressStep_mono r r' ps h)]
      simp [h]

/-- From a down flag, the number of transitions is one exactly when the role
settles somewhere in the order. -/
theorem flips_of_false (r : Role) : ∀ (order : List Role) (ps : ProgressState),
    flagOf r ps = false →
    flips r (List.scanl progressStep ps order) = if r ∈ order then 1 else 0 := by
  intro order
  induction order with
  | nil => intro ps _; simp [List.scanl, flips]
  | cons r' rest ih =>
      intro ps h
      rw [flips_scanl_cons]
      by_cases hr : r = r'
      · cases hr
        rw [flips_of_true r rest (progressStep ps r) (flagOf_progressStep_self r ps)]
        simp [h, flagOf_progressStep_self r ps]
      · have hstep : flagOf r (progressStep ps r') = false := by
          rw [flagOf_progressStep_other r r' ps hr]
          exact h
        rw [ih (progressStep ps r') hstep]
        simp [hstep, List.mem_cons, hr]

/-! ## Claim theorems -/

/-- The transcript as the orchestrator sees it after decoding. -/
def decodedTranscript (req : AnalysisRequest) : Option String :=
  (decodeRequest req).map (fun q => q.1)

/-- The three settled outcomes of one Analyze run. -/
def agentOutcomes (req : AnalysisRequest) (env : Env) (deadline : Nat)
    (t notes : String) : Outcomes :=
  ⟨(crmRun req.recordId env.crm deadline).1,
   (customerStoryRun t notes env.story deadline).1,
   (engineerFeedbackRun t notes env.eng deadline).1⟩

/-- C3: with an empty or undecodable transcript, Analyze fails with
InvalidRequest before any agent is dispatched, so zero calls reach the
Completion, Retrieval and Record Store clients; and handleGenerateReport
issues no network request (and leaves the state alone) when the trimmed
transcript is empty. -/
theorem invalid_request_no_dispatch :
    (∀ (req : AnalysisRequest) (env : Env) (deadline : Nat),
        decodedTranscript req = none ∨ decodedTranscript req = some "" →
        Analyze req env deadline = ⟨.error .invalidRequest, ⟨0, 0, 0⟩, 0⟩) ∧
    (∀ (s : ClientState) (customerFeedback customerContext salesNotes : String)
        (fetched : FetchOutcome), jsTrim customerFeedback = "" →
        handleGenerateReport s customerFeedback customerContext salesNotes fetched =
          ([s], [])) := by
  constructor
  · intro req env deadline hbad
    unfold decodedTranscript at hbad
    unfold Analyze
    cases hd : decodeRequest req with
    | none => rfl
    | some tn =>
        obtain ⟨t, n⟩ := tn
        rw [hd] at hbad
        simp only [Option.map_some', Option.some.injEq, reduceCtorEq, false_or] at hbad
        simp [hbad, CallLog.zero]
  · intro s customerFeedback customerContext salesNotes fetched htr
    unfold handleGenerateReport
    rw [if_pos htr]

theorem invalid_request_no_dispatch_witness :
    (decodedTranscript ⟨.encoded ['!'], none, ""⟩ = none ∨
      decodedTranscript ⟨.encoded ['!'], none, ""⟩ = some "") ∧
    Analyze ⟨.encoded ['!'], none, ""⟩
      ⟨⟨0, .notFound⟩, ⟨0, .responds none, .responds none⟩,
       ⟨0, .responds none, .responds none⟩, [], ""⟩ 5 =
      ⟨.error .invalidRequest, ⟨0, 0, 0⟩, 0⟩ ∧
    jsTrim " " = "" ∧
    handleGenerateReport ⟨false, ⟨false, false, false⟩, none⟩ " " "" "" .throws =
      ([⟨false, ⟨false, false, false⟩, none⟩], []) :=
  ⟨Or.inl (by decide),
   invalid_request_no_dispatch.1 _ _ 5 (Or.inl (by decide)),
   by decide,
   invalid_request_no_dispatch.2 _ _ _ _ .throws (by decide)⟩

/-- C4: with an empty recordId the CRM agent succeeds immediately with the
all-"unknown" profile and no Record Store call; a not-found lookup also maps
to the defaults; any other remote error maps to Failure(LookupError). -/
theorem crm_agent_policy :
    (∀ (env : CrmEnv) (deadline : Nat),
        crmRun "" env deadline =
          (.success ⟨"unknown", "unknown", "unknown", "unknown"⟩, ⟨0, 0, 0⟩, 0)) ∧
    (∀ (recordId : String) (env : CrmEnv) (deadline : Nat),
        recordId ≠ "" → env.finishTime ≤ deadline →
        (env.lookup = .notFound →
          crmRun recordId env deadline =
            (.success ⟨"unknown", "unknown", "unknown", "unknown"⟩, ⟨0, 0, 1⟩,
             min env.finishTime deadline)) ∧
        (∀ m, env.lookup = .transientError m ∨ env.lookup = .lookupFailure m →
          (crmRun recordId env deadline).1 = .failure .lookupError m)) := by
  constructor
  · intro env deadline
    simp [crmRun, defaultCrmInfo, CallLog.zero]
  · intro recordId env deadline hid hft
    have hnt : ¬ deadline < env.finishTime := by omega
    constructor
    · intro hlk
      simp [crmRun, hid, hnt, hlk, defaultCrmInfo]
    · intro m hlk
      rcases hlk with hlk | hlk <;> simp [crmRun, hid, hnt, hlk]

theorem crm_agent_policy_witness :
    crmRun "" ⟨3, .notFound⟩ 5 =
      (.success ⟨"unknown", "unknown", "unknown", "unknown"⟩, ⟨0, 0, 0⟩, 0) ∧
    ("REC" ≠ "" ∧ (3 : Nat) ≤ 5) ∧
    crmRun "REC" ⟨3, .notFound⟩ 5 =
      (.success ⟨"unknown", "unknown", "unknown", "unknown"⟩, ⟨0, 0, 1⟩, min 3 5) :=
  ⟨crm_agent_policy.1 ⟨3, .notFound⟩ 5, ⟨by decide, by decide⟩,
   (crm_agent_policy.2 "REC" ⟨3, .notFound⟩ 5 (by decide) (by decide)).1 rfl⟩

/-- C9 counterexample: the request the client sends carries the record
identifier under the key "crmId"; there is no "recordId" field. -/
theorem crm_field_name_counterexample :
    fieldValue (requestData "t" "" "REC-1") "recordId" = none ∧
    fieldValue (requestData "t" "" "REC-1") "crmId" = some "REC-1" := by
  decide

/-- C9 amended: the client request carries exactly the keys transcript, notes
and crmId, and the record identifier travels under "crmId", not "recordId". -/
theorem crm_field_name_amended
    (customerFeedback customerContext salesNotes : String) :
    (requestData customerFeedback customerContext salesNotes).map (fun q => q.1) =
      ["transcript", "notes", "crmId"] ∧
    fieldValue (requestData customerFeedback customerContext salesNotes) "crmId" =
      some (jsOrElse salesNotes "") ∧
    fieldValue (requestData customerFeedback customerContext salesNotes) "recordId" =
      none := by
  refine ⟨rfl, ?_, ?_⟩ <;> simp [fieldValue, requestData, List.find?]

/-- C10: when the fetch throws or the response is not ok, the client ends in
the reset state: no report, all progress flags down, isGenerating restored to
false; no state after the reset ever exposes a report. -/
theorem error_path_resets_state (s : ClientState)
    (customerFeedback customerContext salesNotes : String) (fetched : FetchOutcome)
    (htr : jsTrim customerFeedback ≠ "")
    (herr : fetched = .throws ∨ ∃ d, fetched = .notOk d) :
    (handleGenerateReport s customerFeedback customerContext salesNotes fetched).1 =
      [s, ⟨true, ⟨false, false, false⟩, none⟩, ⟨false, ⟨false, false, false⟩, none⟩] ∧
    (∀ st ∈ (handleGenerateReport s customerFeedback customerContext salesNotes
        fetched).1.tail,
      st.reportData = none ∧ st.progress = ⟨false, false, false⟩) ∧
    (handleGenerateReport s customerFeedback customerContext salesNotes
        fetched).1.getLast? = some ⟨false, ⟨false, false, false⟩, none⟩ := by
  have hshape : (handleGenerateReport s customerFeedback customerContext salesNotes
      fetched).1 =
      [s, ⟨true, ⟨false, false, false⟩, none⟩, ⟨false, ⟨false, false, false⟩, none⟩] := by
    rcases herr with hf | ⟨d, hf⟩ <;> subst hf <;>
      simp [handleGenerateReport, if_neg htr]
  refine ⟨hshape, ?_, ?_⟩
  · rw [hshape]
    intro st hst
    simp only [List.tail_cons, List.mem_cons, List.mem_singleton] at hst
    rcases hst with h | h | h
    · rw [h]
      exact ⟨rfl, rfl⟩
    · rw [h]
      exact ⟨rfl, rfl⟩
    · simp at h
  · rw [hshape]
    rfl

theorem error_path_resets_state_witness :
    jsTrim "Hi" ≠ "" ∧
    (handleGenerateReport ⟨false, ⟨false, false, false⟩, none⟩ "Hi" "" "" .throws).1 =
      [⟨false, ⟨false, false, false⟩, none⟩, ⟨true, ⟨false, false, false⟩, none⟩,
       ⟨false, ⟨false, false, false⟩, none⟩] :=
  ⟨by decide,
   (error_path_resets_state ⟨false, ⟨false, false, false⟩, none⟩ "Hi" "" "" .throws
      (by decide) (Or.inl rfl)).1⟩

/-- The orchestrator-side decode of a frontend-encoded text recovers it. -/
theorem decodePayload_encoded_round (x : String) :
    decodePayload (.encoded (b64Encode (utf8Encode x))) = some x := by
  show (b64Decode (b64Encode (utf8Encode x))).bind utf8DecodeString = some x
  rw [b64_round_trip _ (utf8Encode_bytes_lt x)]
  simp [utf8_string_round_trip x]

/-- C5: the transcript field the page sends to /analyze is the base64
encoding of the UTF-8 bytes of the text, and the orchestrator-side decode
recovers the original text; the notes field is encoded the same way when
non-empty and is the plain empty string otherwise. -/
theorem request_encoding_round_trip (s : ClientState)
    (customerFeedback customerContext salesNotes : String) (fetched : FetchOutcome)
    (htr : jsTrim customerFeedback ≠ "") :
    (handleGenerateReport s customerFeedback customerContext salesNotes fetched).2 =
      [⟨apiUrl ++ "/analyze", requestData customerFeedback customerContext salesNotes⟩] ∧
    fieldValue (requestData customerFeedback customerContext salesNotes) "transcript" =
      some ⟨b64Encode (utf8Encode customerFeedback)⟩ ∧
    decodePayload (.encoded (b64Encode (utf8Encode customerFeedback))) =
      some customerFeedback ∧
    (customerContext ≠ "" →
      fieldValue (requestData customerFeedback customerContext salesNotes) "notes" =
        some ⟨b64Encode (utf8Encode customerContext)⟩ ∧
      decodePayload (.encoded (b64Encode (utf8Encode customerContext))) =
        some customerContext) ∧
    (customerContext = "" →
      fieldValue (requestData customerFeedback customerContext salesNotes) "notes" =
        some "") := by
  refine ⟨?_, ?_, decodePayload_encoded_round customerFeedback, ?_, ?_⟩
  · cases fetched <;> simp [handleGenerateReport, if_neg htr]
  · simp [fieldValue, requestData, List.find?, encodeForRequest]
  · intro hcc
    refine ⟨?_, decodePayload_encoded_round customerContext⟩
    simp [fieldValue, requestData, List.find?, encodeForRequest, hcc]
  · intro hcc
    simp [fieldValue, requestData, List.find?, hcc]

theorem request_encoding_round_trip_witness :
    jsTrim "Hi" ≠ "" ∧
    decodePayload (.encoded (b64Encode (utf8Encode "Hi"))) = some "Hi" :=
  ⟨by decide,
   (request_encoding_round_trip ⟨false, ⟨false, false, false⟩, none⟩ "Hi" "" "" .throws
      (by decide)).2.2.1⟩

/-- C6: along any settle order of the three agents, every progress flag
starts false, flips from false to true exactly once (when its agent's
attempt finishes, whatever the outcome), and once true is never observed
false again for the rest of the request. -/
theorem progress_flags_flip_once (order : List Role) (hperm : order.Perm allRoles) :
    (progressTrace order).head? = some ⟨false, false, false⟩ ∧
    (∀ r : Role, flips r (progressTrace order) = 1) ∧
    (∀ (r : Role) (i j : Fin (progressTrace order).length), i.val ≤ j.val →
      flagOf r ((progressTrace order).get i) = true →
      flagOf r ((progressTrace order).get j) = true) := by
  refine ⟨scanl_head _ _ _, ?_, ?_⟩
  · intro r
    unfold progressTrace
    rw [flips_of_false r order ⟨false, false, false⟩ (by cases r <;> rfl)]
    rw [if_pos (hperm.mem_iff.mpr (by cases r <;> simp [allRoles]))]
  · exact fun r i j hij h => progressTrace_mono order r i j hij h

theorem progress_flags_flip_once_witness :
    ([Role.story, Role.eng, Role.crm].Perm allRoles) ∧
    (progressTrace [Role.story, Role.eng, Role.crm]).head? =
      some ⟨false, false, false⟩ ∧
    flips Role.crm (progressTrace [Role.story, Role.eng, Role.crm]) = 1 :=
  ⟨by decide,
   (progress_flags_flip_once [Role.story, Role.eng, Role.crm] (by decide)).1,
   (progress_flags_flip_once [Role.story, Role.eng, Role.crm] (by decide)).2.1 Role.crm⟩

/-- Aggregation helper: some success yields a Report. -/
theorem analyze_ok_of_not_all_failed (req : AnalysisRequest) (env : Env)
    (deadline : Nat) (t notes : String)
    (hd : decodeRequest req = some (t, notes)) (ht : t ≠ "")
    (h : (agentOutcomes req env deadline t notes).crm.failed = false ∨
         (agentOutcomes req env deadline t notes).story.failed = false ∨
         (agentOutcomes req env deadline t notes).eng.failed = false) :
    ∃ report, (Analyze req env deadline).result = .ok report := by
  rw [Analyze_valid req env deadline t notes hd ht]
  simp only [agentOutcomes] at h
  by_cases hall : ((crmRun req.recordId env.crm deadline).1.failed &&
      (customerStoryRun t notes env.story deadline).1.failed &&
      (engineerFeedbackRun t notes env.eng deadline).1.failed) = true
  · exfalso
    simp only [Bool.and_eq_true] at hall
    rcases h with h | h | h <;> simp_all
  · refine ⟨⟨(crmRun req.recordId env.crm deadline).1,
      (customerStoryRun t notes env.story deadline).1,
      (engineerFeedbackRun t notes env.eng deadline).1, env.requestId,
      max (crmRun req.recordId env.crm deadline).2.2
        (max (customerStoryRun t notes env.story deadline).2.2
          (engineerFeedbackRun t notes env.eng deadline).2.2)⟩, ?_⟩
    simp only [if_neg hall]

/-- Aggregation helper: AllAgentsFailed with the three causes exactly when
all three outcomes are failures or timeouts. -/
theorem analyze_error_iff_all_failed (req : AnalysisRequest) (env : Env)
    (deadline : Nat) (t notes : String)
    (hd : decodeRequest req = some (t, notes)) (ht : t ≠ "") :
    ((agentOutcomes req env deadline t notes).crm.failed = true ∧
     (agentOutcomes req env deadline t notes).story.failed = true ∧
     (agentOutcomes req env deadline t notes).eng.failed = true) ↔
    (Analyze req env deadline).result =
      .error (.allAgentsFailed (agentOutcomes req env deadline t notes).crm.cause
        (agentOutcomes req env deadline t notes).story.cause
        (agentOutcomes req env deadline t notes).eng.cause) := by
  rw [Analyze_valid req env deadline t notes hd ht]
  simp only [agentOutcomes]
  by_cases h1 : (crmRun req.recordId env.crm deadline).1.failed <;>
  by_cases h2 : (customerStoryRun t notes env.story deadline).1.failed <;>
  by_cases h3 : (engineerFeedbackRun t notes env.eng deadline).1.failed <;>
  simp [h1, h2, h3]

/-- C1: on a valid request, Analyze yields a Report whenever at least one
agent settles with Success, fails with AllAgentsFailed carrying the three
causes exactly when all three settle with Failure or TimedOut, and never
yields a Report in that case. -/
theorem analyze_partial_failure_policy (req : AnalysisRequest) (env : Env)
    (deadline : Nat) (t notes : String)
    (hd : decodeRequest req = some (t, notes)) (ht : t ≠ "") :
    (((agentOutcomes req env deadline t notes).crm.failed = false ∨
      (agentOutcomes req env deadline t notes).story.failed = false ∨
      (agentOutcomes req env deadline t notes).eng.failed = false) →
      ∃ report, (Analyze req env deadline).result = .ok report) ∧
    (((agentOutcomes req env deadline t notes).crm.failed = true ∧
      (agentOutcomes req env deadline t notes).story.failed = true ∧
      (agentOutcomes req env deadline t notes).eng.failed = true) ↔
      (Analyze req env deadline).result =
        .error (.allAgentsFailed (agentOutcomes req env deadline t notes).crm.cause
          (agentOutcomes req env deadline t notes).story.cause
          (agentOutcomes req env deadline t notes).eng.cause)) ∧
    (∀ (e : RequestError) (report : Report),
      (Analyze req env deadline).result = .error e →
      (Analyze req env deadline).result ≠ .ok report) := by
  refine ⟨fun h => analyze_ok_of_not_all_failed req env deadline t notes hd ht h,
    analyze_error_iff_all_failed req env deadline t notes hd ht, ?_⟩
  intro e report he hok
  rw [he] at hok
  exact Except.noConfusion hok

theorem analyze_partial_failure_policy_witness :
    decodeRequest ⟨.plain "hello", none, "id1"⟩ = some ("hello", "") ∧
    (Analyze ⟨.plain "hello", none, "id1"⟩
        ⟨⟨10, .notFound⟩, ⟨10, .responds none, .responds none⟩,
         ⟨10, .responds none, .responds none⟩, [.crm, .story, .eng], "r1"⟩ 5).result =
      .error (.allAgentsFailed .timedOut .timedOut .timedOut) := by
  have h := (analyze_partial_failure_policy ⟨.plain "hello", none, "id1"⟩
      ⟨⟨10, .notFound⟩, ⟨10, .responds none, .responds none⟩,
       ⟨10, .responds none, .responds none⟩, [.crm, .story, .eng], "r1"⟩ 5 "hello" ""
      rfl (by decide)).2.1.mp (by decide)
  exact ⟨rfl, h⟩

/-- C2: whenever Analyze returns a Report, every agent has settled (its slot
holds its terminal outcome), each outcome sits in its fixed role slot
independent of finish order, and the whole result is unchanged under any
settle order. -/
theorem analyze_report_slots_role_fixed (req : AnalysisRequest) (env : Env)
    (deadline : Nat) (t notes : String)
    (hd : decodeRequest req = some (t, notes)) (ht : t ≠ "") :
    ((settleAll (agentOutcomes req env deadline t notes) env.settleOrder).crmSlot =
        some (agentOutcomes req env deadline t notes).crm ∧
     (settleAll (agentOutcomes req env deadline t notes) env.settleOrder).storySlot =
        some (agentOutcomes req env deadline t notes).story ∧
     (settleAll (agentOutcomes req env deadline t notes) env.settleOrder).engSlot =
        some (agentOutcomes req env deadline t notes).eng) ∧
    (∀ report, (Analyze req env deadline).result = .ok report →
      report.crmInfo = (agentOutcomes req env deadline t notes).crm ∧
      report.customerStory = (agentOutcomes req env deadline t notes).story ∧
      report.engineerFeedback = (agentOutcomes req env deadline t notes).eng ∧
      report.requestId = env.requestId) ∧
    (∀ order : List Role,
      (Analyze req ⟨env.crm, env.story, env.eng, order, env.requestId⟩ deadline).result =
        (Analyze req env deadline).result) := by
  refine ⟨⟨settleAll_crmSlot _ _, settleAll_storySlot _ _, settleAll_engSlot _ _⟩, ?_, ?_⟩
  · intro report hok
    rw [Analyze_valid req env deadline t notes hd ht] at hok
    by_cases hall : ((crmRun req.recordId env.crm deadline).1.failed &&
        (customerStoryRun t notes env.story deadline).1.failed &&
        (engineerFeedbackRun t notes env.eng deadline).1.failed) = true
    · simp [hall] at hok
    · simp only [hall, Bool.false_eq_true, if_false, if_neg] at hok
      simp only [Except.ok.injEq] at hok
      cases hok
      exact ⟨rfl, rfl, rfl, rfl⟩
  · intro order
    rw [Analyze_valid req env deadline t notes hd ht,
        Analyze_valid req ⟨env.crm, env.story, env.eng, order, env.requestId⟩ deadline
          t notes hd ht]

theorem analyze_report_slots_role_fixed_witness :
    ((settleAll (agentOutcomes ⟨.plain "hello", none, ""⟩
        ⟨⟨1, .notFound⟩, ⟨1, .responds (some ⟨"bg", [], "positive", []⟩), .responds none⟩,
         ⟨1, .responds (some ⟨"fb", [], "high"⟩), .responds none⟩,
         [.story, .crm, .eng], "r2"⟩ 5 "hello" "")
        [.story, .crm, .eng]).crmSlot =
      some (agentOutcomes ⟨.plain "hello", none, ""⟩
        ⟨⟨1, .notFound⟩, ⟨1, .responds (some ⟨"bg", [], "positive", []⟩), .responds none⟩,
         ⟨1, .responds (some ⟨"fb", [], "high"⟩), .responds none⟩,
         [.story, .crm, .eng], "r2"⟩ 5 "hello" "").crm) ∧
    (Analyze ⟨.plain "hello", none, ""⟩
        ⟨⟨1, .notFound⟩, ⟨1, .responds (some ⟨"bg", [], "positive", []⟩), .responds none⟩,
         ⟨1, .responds (some ⟨"fb", [], "high"⟩), .responds none⟩,
         [.eng, .story, .crm], "r2"⟩ 5).result =
      (Analyze ⟨.plain "hello", none, ""⟩
        ⟨⟨1, .notFound⟩, ⟨1, .responds (some ⟨"bg", [], "positive", []⟩), .responds none⟩,
         ⟨1, .responds (some ⟨"fb", [], "high"⟩), .responds none⟩,
         [.story, .crm, .eng], "r2"⟩ 5).result :=
  ⟨(analyze_report_slots_role_fixed ⟨.plain "hello", none, ""⟩
      ⟨⟨1, .notFound⟩, ⟨1, .responds (some ⟨"bg", [], "positive", []⟩), .responds none⟩,
       ⟨1, .responds (some ⟨"fb", [], "high"⟩), .responds none⟩,
       [.story, .crm, .eng], "r2"⟩ 5 "hello" "" rfl (by decide)).1.1,
   (analyze_report_slots_role_fixed ⟨.plain "hello", none, ""⟩
      ⟨⟨1, .notFound⟩, ⟨1, .responds (some ⟨"bg", [], "positive", []⟩), .responds none⟩,
       ⟨1, .responds (some ⟨"fb", [], "high"⟩), .responds none⟩,
       [.story, .crm, .eng], "r2"⟩ 5 "hello" "" rfl (by decide)).2.2
     [.eng, .story, .crm]⟩

/-- Every leaf of a JSON response is present (some value, never null). -/
def allLeavesPresent (resp : AnalyzeResponse) : Prop :=
  resp.crm_info.name.isSome = true ∧ resp.crm_info.department.isSome = true ∧
  resp.crm_info.email.isSome = true ∧ resp.crm_info.tenure.isSome = true ∧
  resp.customer_story.customer_background.isSome = true ∧
  resp.customer_story.key_points.isSome = true ∧
  resp.customer_story.sentiment.isSome = true ∧
  resp.customer_story.action_items.isSome = true ∧
  resp.engineering_feedback.feedback.isSome = true ∧
  resp.engineering_feedback.action_items.isSome = true ∧
  resp.engineering_feedback.priority.isSome = true

theorem orElseStr_cases (v : Option String) (d : String) :
    orElseStr v d = d ∨ v = some (orElseStr v d) := by
  cases v with
  | none => exact Or.inl rfl
  | some s =>
      unfold orElseStr jsOrElse
      by_cases h : s = "" <;> simp [h]

theorem orElseList_cases (v : Option (List String)) (d : List String) :
    orElseList v d = d ∨ v = some (orElseList v d) := by
  cases v <;> simp [orElseList]

/-- C7 counterexample: a response Analyze can return carries an empty
customer background; the page maps that falsy leaf to the empty string,
which is none of the defaults the claim enumerates addressing string
leaves ("N/A", "neutral", "medium"), and not a list. -/
theorem report_defaults_counterexample :
    (serializeReport ⟨.success ⟨"unknown", "unknown", "unknown", "unknown"⟩,
        .success ⟨"", [], "neutral", []⟩, .success ⟨"f", [], "medium"⟩, "r1",
        0⟩).customer_story.customer_background = some "" ∧
    (buildReportData (serializeReport ⟨.success ⟨"unknown", "unknown", "unknown",
        "unknown"⟩, .success ⟨"", [], "neutral", []⟩, .success ⟨"f", [], "medium"⟩,
        "r1", 0⟩)).customerStory.background = "" ∧
    ¬ ("" = "N/A" ∨ "" = "neutral" ∨ "" = "medium") := by
  decide

/-- C7 amended: every response key is present with a non-null leaf, and each
leaf of the ReportData the page builds is either the (truthy) server value or
its per-field default: "N/A" for the CRM fields, the empty string for
background and feedback, "neutral" for sentiment, "medium" for priority, and
the empty list for the three list fields. -/
theorem report_defaults_amended (r : Report) (resp : AnalyzeResponse) :
    allLeavesPresent (serializeReport r) ∧
    ((buildReportData resp).crmInfo.name = "N/A" ∨
      resp.crm_info.name = some (buildReportData resp).crmInfo.name) ∧
    ((buildReportData resp).crmInfo.department = "N/A" ∨
      resp.crm_info.department = some (buildReportData resp).crmInfo.department) ∧
    ((buildReportData resp).crmInfo.email = "N/A" ∨
      resp.crm_info.email = some (buildReportData resp).crmInfo.email) ∧
    ((buildReportData resp).crmInfo.tenure = "N/A" ∨
      resp.crm_info.tenure = some (buildReportData resp).crmInfo.tenure) ∧
    ((buildReportData resp).customerStory.background = "" ∨
      resp.customer_story.customer_background =
        some (buildReportData resp).customerStory.background) ∧
    ((buildReportData resp).customerStory.keyPoints = [] ∨
      resp.customer_story.key_points =
        some (buildReportData resp).customerStory.keyPoints) ∧
    ((buildReportData resp).customerStory.sentiment = "neutral" ∨
      resp.customer_story.sentiment =
        some (buildReportData resp).customerStory.sentiment) ∧
    ((buildReportData resp).customerStory.actionItems = [] ∨
      resp.customer_story.action_items =
        some (buildReportData resp).customerStory.actionItems) ∧
    ((buildReportData resp).engineeringFeedback.feedback = "" ∨
      resp.engineering_feedback.feedback =
        some (buildReportData resp).engineeringFeedback.feedback) ∧
    ((buildReportData resp).engineeringFeedback.actionItems = [] ∨
      resp.engineering_feedback.action_items =
        some (buildReportData resp).engineeringFeedback.actionItems) ∧
    ((buildReportData resp).engineeringFeedback.priority = "medium" ∨
      resp.engineering_feedback.priority =
        some (buildReportData resp).engineeringFeedback.priority) := by
  refine ⟨?_, orElseStr_cases _ _, orElseStr_cases _ _, orElseStr_cases _ _,
    orElseStr_cases _ _, orElseStr_cases _ _, orElseList_cases _ _,
    orElseStr_cases _ _, orElseList_cases _ _, orElseStr_cases _ _,
    orElseList_cases _ _, orElseStr_cases _ _⟩
  obtain ⟨rc, rs, re, rid, rt⟩ := r
  unfold allLeavesPresent serializeReport
  cases rc <;> cases rs <;> cases re <;> simp

/-- Per-agent settle times never exceed the deadline. -/
theorem crmRun_time_le (recordId : String) (env : CrmEnv) (deadline : Nat) :
    (crmRun recordId env deadline).2.2 ≤ deadline := by
  unfold crmRun
  split
  · simp
  · simp [Nat.min_le_right]

theorem customerStoryRun_time_le (t n : String) (env : AgentEnv CustomerStory)
    (deadline : Nat) : (customerStoryRun t n env deadline).2.2 ≤ deadline :=
  Nat.min_le_right _ _

theorem engineerFeedbackRun_time_le (t n : String) (env : AgentEnv EngineerFeedback)
    (deadline : Nat) : (engineerFeedbackRun t n env deadline).2.2 ≤ deadline :=
  Nat.min_le_right _ _

/-- C8 counterexample: with all three agents still in flight at the deadline,
Analyze does not return a Report: it fails with AllAgentsFailed carrying
three TimedOut causes. -/
theorem analyze_deadline_counterexample :
    (Analyze ⟨.plain "hello", none, "id1"⟩
        ⟨⟨10, .notFound⟩, ⟨10, .responds none, .responds none⟩,
         ⟨10, .responds none, .responds none⟩, [.crm, .story, .eng], "r1"⟩ 5).result =
      .error (.allAgentsFailed .timedOut .timedOut .timedOut) ∧
    (Analyze ⟨.plain "hello", none, "id1"⟩
        ⟨⟨10, .notFound⟩, ⟨10, .responds none, .responds none⟩,
         ⟨10, .responds none, .responds none⟩, [.crm, .story, .eng], "r1"⟩ 5).result.isOk
      = false := by
  decide

/-- C8 amended: on a valid request Analyze is a total function returning at a
model time bounded by the deadline, any agent whose remote work outlasts the
deadline has its slot recorded TimedOut, and a Report is still returned
provided at least one agent settled with Success. -/
theorem analyze_deadline_amended (req : AnalysisRequest) (env : Env)
    (deadline : Nat) (t notes : String)
    (hd : decodeRequest req = some (t, notes)) (ht : t ≠ "") :
    (Analyze req env deadline).returnTime ≤ deadline ∧
    (req.recordId ≠ "" → deadline < env.crm.finishTime →
      (agentOutcomes req env deadline t notes).crm = .timedOut) ∧
    (deadline < env.story.finishTime →
      (agentOutcomes req env deadline t notes).story = .timedOut) ∧
    (deadline < env.eng.finishTime →
      (agentOutcomes req env deadline t notes).eng = .timedOut) ∧
    (((agentOutcomes req env deadline t notes).crm.failed = false ∨
      (agentOutcomes req env deadline t notes).story.failed = false ∨
      (agentOutcomes req env deadline t notes).eng.failed = false) →
      ∃ report, (Analyze req env deadline).result = .ok report) := by
  refine ⟨?_, ?_, ?_, ?_,
    fun h => analyze_ok_of_not_all_failed req env deadline t notes hd ht h⟩
  · rw [Analyze_valid req env deadline t notes hd ht]
    by_cases hall : ((crmRun req.recordId env.crm deadline).1.failed &&
        (customerStoryRun t notes env.story deadline).1.failed &&
        (engineerFeedbackRun t notes env.eng deadline).1.failed) = true <;>
      simp only [hall, if_pos, if_neg, Bool.false_eq_true, if_false, if_true] <;>
      exact Nat.max_le.mpr ⟨crmRun_time_le _ _ _,
        Nat.max_le.mpr ⟨customerStoryRun_time_le _ _ _ _,
          engineerFeedbackRun_time_le _ _ _ _⟩⟩
  · intro hid hlt
    simp [agentOutcomes, crmRun, hid, hlt]
  · intro hlt
    simp [agentOutcomes, customerStoryRun, hlt]
  · intro hlt
    simp [agentOutcomes, engineerFeedbackRun, hlt]

theorem analyze_deadline_amended_witness :
    decodeRequest ⟨.plain "hello", none, "id1"⟩ = some ("hello", "") ∧
    (Analyze ⟨.plain "hello", none, "id1"⟩
        ⟨⟨10, .notFound⟩, ⟨2, .responds (some ⟨"bg", [], "positive", []⟩),
          .responds none⟩, ⟨10, .responds none, .responds none⟩,
         [.crm, .story, .eng], "r1"⟩ 5).returnTime ≤ 5 ∧
    (agentOutcomes ⟨.plain "hello", none, "id1"⟩
        ⟨⟨10, .notFound⟩, ⟨2, .responds (some ⟨"bg", [], "positive", []⟩),
          .responds none⟩, ⟨10, .responds none, .responds none⟩,
         [.crm, .story, .eng], "r1"⟩ 5 "hello" "").crm = .timedOut ∧
    ∃ report, (Analyze ⟨.plain "hello", none, "id1"⟩
        ⟨⟨10, .notFound⟩, ⟨2, .responds (some ⟨"bg", [], "positive", []⟩),
          .responds none⟩, ⟨10, .responds none, .responds none⟩,
         [.crm, .story, .eng], "r1"⟩ 5).result = .ok report := by
  have h := analyze_deadline_amended ⟨.plain "hello", none, "id1"⟩
      ⟨⟨10, .notFound⟩, ⟨2, .responds (some ⟨"bg", [], "positive", []⟩),
        .responds none⟩, ⟨10, .responds none, .responds none⟩,
       [.crm, .story, .eng], "r1"⟩ 5 "hello" "" rfl (by decide)
  exact ⟨rfl, h.1, h.2.1 (by decide) (by decide), h.2.2.2.2 (by decide)⟩

end SalesCopilot
